import Mathlib

/-!
Verification of the configuration-parsing engine of a captive-portal gateway
daemon (`src/conf.c`).  The C code is shallowly embedded: lines are lists of
characters (the trailing newline that `fgets` keeps and `config_read` strips is
left out), the mutable global `s_config` becomes an explicit record threaded
through the parsing functions, `exit(-1)` on a fatal configuration error
becomes `none` / a distinguished failure value, and the singly linked server /
ruleset / MAC lists become Lean lists in the same order.  The constants from
`conf.h` and `common.h` (the `DEFAULT_*` macros) are not part of the sources,
so they appear as parameters of the model.
-/

/-- Converts a string literal to the character-list representation used by the
embedding. -/
def chars (s : String) : List Char := s.data

/-- C `isblank`: a space or a horizontal tab. -/
def isBlankC (c : Char) : Bool := c == ' ' || c == '\t'

/-- C `isdigit`. -/
def isDigitC (c : Char) : Bool := decide ('0' ≤ c ∧ c ≤ '9')

/-- C `isspace` (C locale): space, tab, newline, vertical tab, form feed,
carriage return. -/
def isSpaceC (c : Char) : Bool :=
  c == ' ' || c == '\t' || c == '\n' || c == Char.ofNat 11 || c == Char.ofNat 12 || c == '\r'

/-- C `tolower` in the C locale. -/
def toLowerC (c : Char) : Char :=
  if 'A' ≤ c ∧ c ≤ 'Z' then Char.ofNat (c.toNat + 32) else c

/-- Equality up to `tolower`, the equality tested by C `strcasecmp`. -/
def lowerEq (a b : List Char) : Bool := a.map toLowerC == b.map toLowerC

/-- The `OpCodes` enumeration of `conf.c`. -/
inductive OpCodes where
  | oBadOption
  | oDaemon
  | oDebugLevel
  | oExternalInterface
  | oGatewayID
  | oDevID
  | oGatewayInterface
  | oGatewayAddress
  | oGatewayPort
  | oPortalServer
  | oPlatServer
  | oLogServer
  | oAuthServer
  | oServHostname
  | oServSSLAvailable
  | oServSSLPort
  | oServHTTPPort
  | oLogServPort
  | oServPath
  | oServLoginScriptPathFragment
  | oServPortalScriptPathFragment
  | oServMsgScriptPathFragment
  | oServPingScriptPathFragment
  | oServAuthScriptPathFragment
  | oHTTPDMaxConn
  | oHTTPDName
  | oHTTPDRealm
  | oHTTPDUsername
  | oHTTPDPassword
  | oClientTimeout
  | oCheckInterval
  | oAuthInterval
  | oWdctlSocket
  | oSyslogFacility
  | oFirewallRule
  | oFirewallRuleSet
  | oTrustedMACList
  | oHtmlMessageFile
  | oProxyPort
deriving DecidableEq

/-- The `keywords` table of `conf.c`, in source order. -/
def keywords : List (List Char × OpCodes) := [
  (chars "daemon", .oDaemon),
  (chars "debuglevel", .oDebugLevel),
  (chars "externalinterface", .oExternalInterface),
  (chars "gatewayid", .oGatewayID),
  (chars "devid", .oDevID),
  (chars "gatewayinterface", .oGatewayInterface),
  (chars "gatewayaddress", .oGatewayAddress),
  (chars "gatewayport", .oGatewayPort),
  (chars "authserver", .oAuthServer),
  (chars "portalserver", .oPortalServer),
  (chars "platformserver", .oPlatServer),
  (chars "logserver", .oLogServer),
  (chars "httpdmaxconn", .oHTTPDMaxConn),
  (chars "httpdname", .oHTTPDName),
  (chars "httpdrealm", .oHTTPDRealm),
  (chars "httpdusername", .oHTTPDUsername),
  (chars "httpdpassword", .oHTTPDPassword),
  (chars "clienttimeout", .oClientTimeout),
  (chars "checkinterval", .oCheckInterval),
  (chars "authinterval", .oAuthInterval),
  (chars "syslogfacility", .oSyslogFacility),
  (chars "wdctlsocket", .oWdctlSocket),
  (chars "hostname", .oServHostname),
  (chars "sslavailable", .oServSSLAvailable),
  (chars "sslport", .oServSSLPort),
  (chars "httpport", .oServHTTPPort),
  (chars "logport", .oLogServPort),
  (chars "path", .oServPath),
  (chars "loginscriptpathfragment", .oServLoginScriptPathFragment),
  (chars "portalscriptpathfragment", .oServPortalScriptPathFragment),
  (chars "msgscriptpathfragment", .oServMsgScriptPathFragment),
  (chars "pingscriptpathfragment", .oServPingScriptPathFragment),
  (chars "authscriptpathfragment", .oServAuthScriptPathFragment),
  (chars "firewallruleset", .oFirewallRuleSet),
  (chars "firewallrule", .oFirewallRule),
  (chars "trustedmaclist", .oTrustedMACList),
  (chars "htmlmessagefile", .oHtmlMessageFile),
  (chars "proxyport", .oProxyPort)]

/-- `config_parse_token`: case-insensitive lookup in the keyword table;
an unknown token maps to the `oBadOption` sentinel. -/
def config_parse_token (cp : List Char) : OpCodes :=
  match keywords.find? (fun kw => lowerEq cp kw.1) with
  | some kw => kw.2
  | none => .oBadOption

/-- The `TO_NEXT_WORD` macro of `conf.c`.  Input: the remaining text and the
cumulative end-of-line flag `e`.  Output: the current word (text up to the
first blank), the text positioned at the next word (the first blank is
consumed and further blanks skipped), and the updated flag, which becomes
true when the scan ran into the terminating NUL instead of a blank. -/
def toNextWord (s : List Char) (e : Bool) : List Char × List Char × Bool :=
  let word := s.takeWhile (fun c => !(isBlankC c))
  let rest := s.dropWhile (fun c => !(isBlankC c))
  match rest with
  | [] => (word, [], true)
  | _ :: t => (word, t.dropWhile isBlankC, e)

/-- `t_firewall_target` from `firewall.h` (values as used in `conf.c`). -/
inductive t_firewall_target where
  | TARGET_DROP
  | TARGET_REJECT
  | TARGET_ACCEPT
  | TARGET_LOG
  | TARGET_ULOG
deriving DecidableEq

/-- `t_firewall_rule`: the record built by `_parse_firewall_rule`.
`protocol` and `port` stay `none` when the corresponding `safe_strdup`
never runs; `mask` always receives a string. -/
structure t_firewall_rule where
  target : t_firewall_target
  protocol : Option (List Char)
  port : Option (List Char)
  mask : List Char
deriving DecidableEq

/-- `t_firewall_ruleset`: a named ruleset owning its rule list. -/
structure t_firewall_ruleset where
  name : List Char
  rules : List t_firewall_rule
deriving DecidableEq

/-- The optional `to <mask>` clause at the end of `_parse_firewall_rule`,
plus the defaulting of the mask to "0.0.0.0/0" when the line is exhausted. -/
def firewallRuleTail (target : t_firewall_target) (protocol : Option (List Char))
    (port : Option (List Char)) (s : List Char) (fin : Bool) :
    Except Int t_firewall_rule :=
  if !fin then
    let r5 := toNextWord s fin
    let other_kw := r5.1
    if !(other_kw == chars "to") || r5.2.2 then .error (-4)
    else
      let r6 := toNextWord r5.2.1 r5.2.2
      let mask := r6.1
      if mask.all (fun c => isDigitC c || c == '.' || c == '/') then
        .ok ⟨target, protocol, port, mask⟩
      else .error (-3)
  else
    .ok ⟨target, protocol, port, chars "0.0.0.0/0"⟩

/-- The parsing part of `_parse_firewall_rule` (everything before the rule
record is allocated): lower-cases the line, scans target, optional protocol,
optional `port` clause and optional `to` clause, and returns either the rule
or the C function's negative failure code (`-1` bad target, `-3` bad port or
bad mask, `-4` bad `to` keyword). -/
def firewallRuleParse (leftover0 : List Char) : Except Int t_firewall_rule :=
  let s0 := leftover0.map toLowerC
  let r1 := toNextWord s0 false
  let token := r1.1
  let s1 := r1.2.1
  let fin1 := r1.2.2
  let tgt? : Option t_firewall_target :=
    if lowerEq token (chars "block") || fin1 then some .TARGET_REJECT
    else if lowerEq token (chars "drop") then some .TARGET_DROP
    else if lowerEq token (chars "allow") then some .TARGET_ACCEPT
    else if lowerEq token (chars "log") then some .TARGET_LOG
    else if lowerEq token (chars "ulog") then some .TARGET_ULOG
    else none
  match tgt? with
  | none => .error (-1)
  | some target =>
    let r2 :=
      if (chars "tcp").isPrefixOf s1 || (chars "udp").isPrefixOf s1
          || (chars "icmp").isPrefixOf s1 then
        let w := toNextWord s1 fin1
        (some w.1, w.2.1, w.2.2)
      else (none, s1, fin1)
    let protocol := r2.1
    let s2 := r2.2.1
    let fin2 := r2.2.2
    if (chars "port").isPrefixOf s2 then
      let r3 := toNextWord s2 fin2
      let r4 := toNextWord r3.2.1 r3.2.2
      let port := r4.1
      if port.all isDigitC then
        firewallRuleTail target protocol (some port) r4.2.1 r4.2.2
      else .error (-3)
    else
      firewallRuleTail target protocol none s2 fin2

/-- The append part of `_parse_firewall_rule`: walk `config.rulesets` for the
first ruleset with this name and append the rule at the tail of its rule list;
when no ruleset of this name exists, a fresh one is linked at the tail of the
ruleset list. -/
def fwAppendRule : List t_firewall_ruleset → List Char → t_firewall_rule →
    List t_firewall_ruleset
  | [], ruleset, tmp => [⟨ruleset, [tmp]⟩]
  | rsh :: rst, ruleset, tmp =>
    if rsh.name = ruleset then ⟨rsh.name, rsh.rules ++ [tmp]⟩ :: rst
    else rsh :: fwAppendRule rst ruleset tmp

/-- `_parse_firewall_rule`: parses one rule line and, on success, appends the
rule to the named ruleset inside the ruleset list (creating the ruleset on
first use).  Returns the C result code (1 on success, negative on failure)
together with the new ruleset list. -/
def _parse_firewall_rule (rulesets : List t_firewall_ruleset) (ruleset : List Char)
    (leftover : List Char) : Int × List t_firewall_ruleset :=
  match firewallRuleParse leftover with
  | .error code => (code, rulesets)
  | .ok tmp => (1, fwAppendRule rulesets ruleset tmp)

/-- `get_ruleset`: linear name lookup returning the rule list of the first
ruleset with that name; the C function returns `NULL` when there is none,
modelled as the empty list. -/
def get_ruleset : List t_firewall_ruleset → List Char → List t_firewall_rule
  | [], _ => []
  | rsh :: rst, ruleset => if rsh.name = ruleset then rsh.rules else get_ruleset rst ruleset

/-- Cut before the first occurrence of the pattern "\r\n" (C `strstr`),
keeping everything when the pattern does not occur. -/
def cutCRLF : List Char → List Char
  | [] => []
  | '\r' :: '\n' :: _ => []
  | c :: rest => c :: cutCRLF rest

/-- Whether "\r\n" occurs in the text. -/
def hasCRLF : List Char → Bool
  | [] => false
  | '\r' :: '\n' :: _ => true
  | _ :: rest => hasCRLF rest

/-- End-of-line handling shared by `parse_server` and
`parse_firewall_ruleset`: terminate the line at the first `#`, else at the
first `\r`, else at the first `\n`. -/
def cutLine (p : List Char) : List Char :=
  if p.contains '#' then p.takeWhile (fun c => !(c == '#'))
  else if p.contains '\r' then p.takeWhile (fun c => !(c == '\r'))
  else p.takeWhile (fun c => !(c == '\n'))

/-- The in-block line scanner shared (textually, in the C) by `parse_server`
and `parse_firewall_ruleset`: skip leading blanks, terminate the line at
comment / CR / LF, and when something is left split off the first word and
position after the following blanks.  `none` means the line is empty after
stripping and is skipped. -/
def blockScan (line : List Char) : Option (List Char × List Char) :=
  let p1 := cutLine (line.dropWhile isBlankC)
  if p1.isEmpty then none
  else
    let tok := p1.takeWhile (fun c => !(isBlankC c))
    let rest := p1.dropWhile (fun c => !(isBlankC c))
    some (tok, (rest.drop 1).dropWhile isBlankC)

/-- `parse_firewall_ruleset`: consume lines until one containing `}` (checked
on the raw line, before any stripping) or end of file; every non-empty line
must decode to the `FirewallRule` opcode and its remainder is handed to
`_parse_firewall_rule`, whose result code is ignored; any other opcode makes
the whole configuration read exit fatally (`none`).  On success, returns the
updated ruleset list and the lines remaining after the block. -/
def parse_firewall_ruleset (ruleset : List Char) :
    List (List Char) → List t_firewall_ruleset →
    Option (List t_firewall_ruleset × List (List Char))
  | [], rulesets => some (rulesets, [])
  | line :: rest, rulesets =>
    if line.contains '}' then some (rulesets, rest)
    else
      match blockScan line with
      | none => parse_firewall_ruleset ruleset rest rulesets
      | some (tok, p2) =>
        if config_parse_token tok = .oFirewallRule then
          parse_firewall_ruleset ruleset rest (_parse_firewall_rule rulesets ruleset p2).2
        else none

/-- Specification-side companion of `parse_firewall_ruleset`: the list of the
rules of a block that the mini-parser accepts, in their order of appearance.
Used only to state what a block contributes to its ruleset. -/
def blockRules : List (List Char) → List t_firewall_rule
  | [] => []
  | line :: rest =>
    if line.contains '}' then []
    else
      match blockScan line with
      | none => blockRules rest
      | some (_, p2) =>
        match firewallRuleParse p2 with
        | .ok r => r :: blockRules rest
        | .error _ => blockRules rest

/-- The names of the rulesets, in list order. -/
def rulesetNames (rs : List t_firewall_ruleset) : List (List Char) :=
  rs.map t_firewall_ruleset.name

/-- Accumulator for C `strsep(&ptrcopy, ", ")`: split at every comma or
space, producing (possibly empty) tokens. -/
def strsepSplitAux : List Char → List Char → List (List Char)
  | [], acc => [acc.reverse]
  | c :: rest, acc =>
    if c == ',' || c == ' ' then acc.reverse :: strsepSplitAux rest []
    else strsepSplitAux rest (c :: acc)

/-- The token sequence `strsep(&ptrcopy, ", ")` yields for the whole input. -/
def strsepSplit (s : List Char) : List (List Char) := strsepSplitAux s []

/-- A character accepted by the scanset of `sscanf(possiblemac, " %17[A-Fa-f0-9:]", mac)`. -/
def isMacChar (c : Char) : Bool :=
  decide ('0' ≤ c ∧ c ≤ '9') || decide ('a' ≤ c ∧ c ≤ 'f') || decide ('A' ≤ c ∧ c ≤ 'F')
    || c == ':'

/-- `sscanf(possiblemac, " %17[A-Fa-f0-9:]", mac)`: skip leading white space,
then match a maximal run of hex digits and colons, at most 17 characters;
the conversion fails (`none`, sscanf does not return 1) when that run is
empty. -/
def macScan (tok : List Char) : Option (List Char) :=
  let m := ((tok.dropWhile isSpaceC).takeWhile isMacChar).take 17
  if m.isEmpty then none else some m

/-- The duplicate test of `parse_trusted_mac_list`: the while loop compares
`p->mac` before advancing, so it tests every entry except the final one. -/
def trustedLoopCheck : List (List Char) → List Char → Bool
  | [], _ => false
  | [_], _ => false
  | x :: y :: t, mac => x == mac || trustedLoopCheck (y :: t) mac

/-- One insertion step of `parse_trusted_mac_list`: on an empty list the
entry is simply created; otherwise `skipmac` is the head test done before
the loop or the loop test, and the entry is appended at the tail unless
`skipmac` was set. -/
def trustedInsert (l : List (List Char)) (mac : List Char) : List (List Char) :=
  match l with
  | [] => [mac]
  | headmac :: _ =>
    let skipmac := headmac == mac || trustedLoopCheck l mac
    if skipmac then l else l ++ [mac]

/-- `parse_trusted_mac_list`: split the directive value at commas and spaces,
normalize each candidate with the sscanf scanset, and insert the survivors
into the trusted list. -/
def parse_trusted_mac_list (ptr : List Char) (trustedmaclist : List (List Char)) :
    List (List Char) :=
  (strsepSplit ptr).foldl
    (fun acc possiblemac =>
      match macScan possiblemac with
      | none => acc
      | some mac => trustedInsert acc mac)
    trustedmaclist

/-- `parse_boolean_value`: `yes`/`no` case-insensitively, `1`/`0` exactly;
anything else is the unrecognized value `-1`. -/
def parse_boolean_value (line : List Char) : Int :=
  if lowerEq line (chars "yes") then 1
  else if lowerEq line (chars "no") then 0
  else if line = chars "1" then 1
  else if line = chars "0" then 0
  else -1

/-- C `atoi`: skip white space, read an optional sign and a digit run;
no digits yields 0. -/
def digitsVal (s : List Char) : Int :=
  Int.ofNat ((s.takeWhile isDigitC).foldl (fun a c => a * 10 + (c.toNat - 48)) 0)

/-- C `atoi` on the embedded strings. -/
def atoiC (s : List Char) : Int :=
  match s.dropWhile isSpaceC with
  | '-' :: u => -(digitsVal u)
  | '+' :: u => digitsVal u
  | t => digitsVal t

/-- `sscanf(p1, "%d", &field)`: like `atoi` but reports whether a number was
converted at all; on `none` the C target variable is left unchanged. -/
def scanIntC (s : List Char) : Option Int :=
  match s.dropWhile isSpaceC with
  | '-' :: u => if (u.takeWhile isDigitC).isEmpty then none else some (-(digitsVal u))
  | '+' :: u => if (u.takeWhile isDigitC).isEmpty then none else some (digitsVal u)
  | t => if (t.takeWhile isDigitC).isEmpty then none else some (digitsVal t)

/-- `t_serv` from `conf.h`, as populated by `conf.c`. -/
structure t_serv where
  serv_hostname : List Char
  serv_use_ssl : Int
  serv_path : List Char
  serv_login_script_path_fragment : List Char
  serv_portal_script_path_fragment : List Char
  serv_msg_script_path_fragment : List Char
  serv_ping_script_path_fragment : List Char
  serv_auth_script_path_fragment : List Char
  serv_update_script_path_fragment : Option (List Char)
  serv_http_port : Int
  serv_ssl_port : Int
  last_ip : Option (List Char)
deriving DecidableEq

/-- Modelled from the spec: the `DEFAULT_*` configuration constants live in
`conf.h`/`common.h`, which are not among the sources; the spec names them
(default path, default script fragments, default ports, default SSL flag,
scalar defaults) but gives no concrete values, so the model takes them as
parameters. -/
structure ConfDefaults where
  DEFAULT_HTMLMSGFILE : List Char
  DEFAULT_DEBUGLEVEL : Int
  DEFAULT_HTTPDMAXCONN : Int
  DEFAULT_DEV : List Char
  DEFAULT_GATEWAYPORT : Int
  DEFAULT_HTTPDNAME : List Char
  DEFAULT_CLIENTTIMEOUT : Int
  DEFAULT_CHECKINTERVAL : Int
  DEFAULT_AUTHINTERVAL : Int
  DEFAULT_SYSLOG_FACILITY : Int
  DEFAULT_LOG_SYSLOG : Int
  DEFAULT_WDCTL_SOCK : List Char
  DEFAULT_INTERNAL_SOCK : List Char
  DEFAULT_LOGSERVER : List Char
  DEFAULT_UPDATESERVER : List Char
  DEFAULT_UPDATESERVERPATH : List Char
  DEFAULT_UPDATESERVERPATHFRAGMENT : List Char
  DEFAULT_AUTHSERVPATH : List Char
  DEFAULT_AUTHSERVLOGINPATHFRAGMENT : List Char
  DEFAULT_AUTHSERVPORTALPATHFRAGMENT : List Char
  DEFAULT_AUTHSERVMSGPATHFRAGMENT : List Char
  DEFAULT_AUTHSERVPINGPATHFRAGMENT : List Char
  DEFAULT_AUTHSERVAUTHPATHFRAGMENT : List Char
  DEFAULT_AUTHSERVPORT : Int
  DEFAULT_AUTHSERVSSLPORT : Int
  DEFAULT_AUTHSERVSSLAVAILABLE : Int
  DEFAULT_DAEMON : Int
deriving DecidableEq

/-- The local variables of `parse_server` that accumulate the fields of the
endpoint while the block's lines are read. -/
structure ServAcc where
  host : Option (List Char)
  path : List Char
  loginscriptpathfragment : List Char
  portalscriptpathfragment : List Char
  msgscriptpathfragment : List Char
  pingscriptpathfragment : List Char
  authscriptpathfragment : List Char
  http_port : Int
  ssl_port : Int
  ssl_available : Int
deriving DecidableEq

/-- The `switch (opcode)` of `parse_server`'s loop body: the server-field
opcode subset updates the accumulator, `LogPort` is a no-op, and every other
opcode (the `oBadOption`/`default` arm) exits fatally (`none`). -/
def servAssign (acc : ServAcc) (opcode : OpCodes) (p2 : List Char) : Option ServAcc :=
  match opcode with
  | .oServHostname => some { acc with host := some p2 }
  | .oServPath => some { acc with path := p2 }
  | .oServLoginScriptPathFragment => some { acc with loginscriptpathfragment := p2 }
  | .oServPortalScriptPathFragment => some { acc with portalscriptpathfragment := p2 }
  | .oServMsgScriptPathFragment => some { acc with msgscriptpathfragment := p2 }
  | .oServPingScriptPathFragment => some { acc with pingscriptpathfragment := p2 }
  | .oServAuthScriptPathFragment => some { acc with authscriptpathfragment := p2 }
  | .oServSSLPort => some { acc with ssl_port := atoiC p2 }
  | .oServHTTPPort => some { acc with http_port := atoiC p2 }
  | .oLogServPort => some acc
  | .oServSSLAvailable =>
    let v := parse_boolean_value p2
    some { acc with ssl_available := if v < 0 then 0 else v }
  | _ => none

/-- The parsing loop of `parse_server`: consume lines until one containing
`}` (raw-line check) or end of file, updating the accumulator; a bad opcode
aborts fatally.  Returns the accumulator and the remaining lines. -/
def parse_server_loop : List (List Char) → ServAcc → Option (ServAcc × List (List Char))
  | [], acc => some (acc, [])
  | line :: rest, acc =>
    if line.contains '}' then some (acc, rest)
    else
      match blockScan line with
      | none => parse_server_loop rest acc
      | some (tok, p2) =>
        match servAssign acc (config_parse_token tok) p2 with
        | none => none
        | some acc2 => parse_server_loop rest acc2

/-- `s_config` from `conf.h`, restricted to the fields `conf.c` reads or
writes (`configfile` itself, a fixed buffer only copied into, is left out). -/
structure s_config where
  htmlmsgfile : List Char
  debuglevel : Int
  httpdmaxconn : Int
  external_interface : Option (List Char)
  gw_id : Option (List Char)
  dev_id : List Char
  gw_mac : Option (List Char)
  gw_interface : Option (List Char)
  gw_address : Option (List Char)
  gw_port : Int
  auth_servers : List t_serv
  httpdname : Option (List Char)
  portal_servers : List t_serv
  plat_servers : List t_serv
  update_servers : List t_serv
  log_servers : List t_serv
  httpdrealm : List Char
  httpdusername : Option (List Char)
  httpdpassword : Option (List Char)
  clienttimeout : Int
  checkinterval : Int
  authinterval : Int
  syslog_facility : Int
  daemon : Int
  log_syslog : Int
  wdctl_sock : List Char
  internal_sock : List Char
  rulesets : List t_firewall_ruleset
  trustedmaclist : List (List Char)
  proxy_port : Int
deriving DecidableEq

/-- `parse_server`: seed the defaults, run the block loop, and on close
build the endpoint.  When no hostname was set the block is dropped and the
config is returned unchanged.  Otherwise the endpoint is appended to the
list selected by `ty` (1 auth, 2 portal, 3 platform); for portal and
platform the hostname is resolved through the external resolver `dns` and a
successful result cached in `last_ip` (it is `NULL` before, so the strcmp
guard of the C always stores a fresh result).  An unknown `ty` only logs. -/
def parse_server (d : ConfDefaults) (dns : List Char → Option (List Char))
    (cfg : s_config) (ty : Int) (lines : List (List Char)) :
    Option (s_config × List (List Char)) :=
  let acc0 : ServAcc := {
    host := none
    path := d.DEFAULT_AUTHSERVPATH
    loginscriptpathfragment := d.DEFAULT_AUTHSERVLOGINPATHFRAGMENT
    portalscriptpathfragment := d.DEFAULT_AUTHSERVPORTALPATHFRAGMENT
    msgscriptpathfragment := d.DEFAULT_AUTHSERVMSGPATHFRAGMENT
    pingscriptpathfragment := d.DEFAULT_AUTHSERVPINGPATHFRAGMENT
    authscriptpathfragment := d.DEFAULT_AUTHSERVAUTHPATHFRAGMENT
    http_port := d.DEFAULT_AUTHSERVPORT
    ssl_port := d.DEFAULT_AUTHSERVSSLPORT
    ssl_available := d.DEFAULT_AUTHSERVSSLAVAILABLE }
  match parse_server_loop lines acc0 with
  | none => none
  | some (acc, rest) =>
    match acc.host with
    | none => some (cfg, rest)
    | some host =>
      let new0 : t_serv := {
        serv_hostname := host
        serv_use_ssl := acc.ssl_available
        serv_path := acc.path
        serv_login_script_path_fragment := acc.loginscriptpathfragment
        serv_portal_script_path_fragment := acc.portalscriptpathfragment
        serv_msg_script_path_fragment := acc.msgscriptpathfragment
        serv_ping_script_path_fragment := acc.pingscriptpathfragment
        serv_auth_script_path_fragment := acc.authscriptpathfragment
        serv_update_script_path_fragment := none
        serv_http_port := acc.http_port
        serv_ssl_port := acc.ssl_port
        last_ip := none }
      if ty = 1 then
        some ({ cfg with auth_servers := cfg.auth_servers ++ [new0] }, rest)
      else if ty = 2 then
        let new1 := match dns new0.serv_hostname with
          | some ip => { new0 with last_ip := some ip }
          | none => new0
        some ({ cfg with portal_servers := cfg.portal_servers ++ [new1] }, rest)
      else if ty = 3 then
        let new1 := match dns new0.serv_hostname with
          | some ip => { new0 with last_ip := some ip }
          | none => new0
        some ({ cfg with plat_servers := cfg.plat_servers ++ [new1] }, rest)
      else
        some (cfg, rest)

/-- `config_update_server_init`: seed the update-server list with one default
entry when it is still empty. -/
def config_update_server_init (d : ConfDefaults) (cfg : s_config) : s_config :=
  if cfg.update_servers = [] then
    { cfg with update_servers := [{
        serv_hostname := d.DEFAULT_UPDATESERVER
        serv_use_ssl := d.DEFAULT_AUTHSERVSSLAVAILABLE
        serv_path := d.DEFAULT_UPDATESERVERPATH
        serv_login_script_path_fragment := d.DEFAULT_AUTHSERVLOGINPATHFRAGMENT
        serv_portal_script_path_fragment := d.DEFAULT_AUTHSERVPORTALPATHFRAGMENT
        serv_msg_script_path_fragment := d.DEFAULT_AUTHSERVMSGPATHFRAGMENT
        serv_ping_script_path_fragment := d.DEFAULT_AUTHSERVPINGPATHFRAGMENT
        serv_auth_script_path_fragment := d.DEFAULT_AUTHSERVAUTHPATHFRAGMENT
        serv_update_script_path_fragment := some d.DEFAULT_UPDATESERVERPATHFRAGMENT
        serv_http_port := d.DEFAULT_AUTHSERVPORT
        serv_ssl_port := d.DEFAULT_AUTHSERVSSLPORT
        last_ip := none }] }
  else cfg

/-- `config_init`, on the first call of the process (the static config is
zeroed, so `gw_id` stays unset — its assignment is commented out — and the
log-server list, still empty, is seeded with the default entry). -/
def config_init (d : ConfDefaults) : s_config :=
  config_update_server_init d {
    htmlmsgfile := d.DEFAULT_HTMLMSGFILE
    debuglevel := d.DEFAULT_DEBUGLEVEL
    httpdmaxconn := d.DEFAULT_HTTPDMAXCONN
    external_interface := none
    gw_id := none
    dev_id := d.DEFAULT_DEV
    gw_mac := none
    gw_interface := none
    gw_address := none
    gw_port := d.DEFAULT_GATEWAYPORT
    auth_servers := []
    httpdname := none
    portal_servers := []
    plat_servers := []
    update_servers := []
    log_servers := [{
      serv_hostname := d.DEFAULT_LOGSERVER
      serv_use_ssl := d.DEFAULT_AUTHSERVSSLAVAILABLE
      serv_path := d.DEFAULT_AUTHSERVPATH
      serv_login_script_path_fragment := d.DEFAULT_AUTHSERVLOGINPATHFRAGMENT
      serv_portal_script_path_fragment := d.DEFAULT_AUTHSERVPORTALPATHFRAGMENT
      serv_msg_script_path_fragment := d.DEFAULT_AUTHSERVMSGPATHFRAGMENT
      serv_ping_script_path_fragment := d.DEFAULT_AUTHSERVPINGPATHFRAGMENT
      serv_auth_script_path_fragment := d.DEFAULT_AUTHSERVAUTHPATHFRAGMENT
      serv_update_script_path_fragment := none
      serv_http_port := d.DEFAULT_AUTHSERVPORT
      serv_ssl_port := d.DEFAULT_AUTHSERVSSLPORT
      last_ip := none }]
    httpdrealm := d.DEFAULT_HTTPDNAME
    httpdusername := none
    httpdpassword := none
    clienttimeout := d.DEFAULT_CLIENTTIMEOUT
    checkinterval := d.DEFAULT_CHECKINTERVAL
    authinterval := d.DEFAULT_AUTHINTERVAL
    syslog_facility := d.DEFAULT_SYSLOG_FACILITY
    daemon := -1
    log_syslog := d.DEFAULT_LOG_SYSLOG
    wdctl_sock := d.DEFAULT_WDCTL_SOCK
    internal_sock := d.DEFAULT_INTERNAL_SOCK
    rulesets := []
    trustedmaclist := []
    proxy_port := 0 }

/-- `config_init_override`: fill in the default daemon flag only when the
command line left it unset. -/
def config_init_override (d : ConfDefaults) (cfg : s_config) : s_config :=
  if cfg.daemon = -1 then { cfg with daemon := d.DEFAULT_DAEMON } else cfg

/-- The top-level line scanner of `config_read` (the trailing newline that
`fgets` keeps is already stripped in the embedding): cut the line at its
first space if it has one, else at its first tab, else give up (`none`);
trim leading spaces off the remainder and cut it at its first space (else at
"\r\n", else at a newline).  `none` is also returned when the value ends up
empty — `config_read` then skips the line without even looking up the
keyword. -/
def splitTop (s : List Char) : Option (List Char × List Char) :=
  match (if s.contains ' ' then
           some (s.takeWhile (fun c => !(c == ' ')),
                 (s.dropWhile (fun c => !(c == ' '))).drop 1)
         else if s.contains '\t' then
           some (s.takeWhile (fun c => !(c == '\t')),
                 (s.dropWhile (fun c => !(c == '\t'))).drop 1)
         else none) with
  | none => none
  | some (key, r0) =>
    let r1 := r0.dropWhile (fun c => c == ' ')
    let p1 := if r1.contains ' ' then r1.takeWhile (fun c => !(c == ' '))
              else if hasCRLF r1 then cutCRLF r1
              else r1.takeWhile (fun c => !(c == '\n'))
    if p1.isEmpty then none else some (key, p1)

/-- The `oDaemon` arm of `config_read`: assign the parsed boolean only when
the flag is still unset (-1) and the value is a recognized boolean. -/
def daemonUpdate (cfg : s_config) (p1 : List Char) : s_config :=
  if cfg.daemon = -1 ∧ parse_boolean_value p1 ≠ -1 then
    { cfg with daemon := parse_boolean_value p1 }
  else cfg

/-- The scalar arms of `config_read`'s `switch`: every opcode that neither
consumes further lines nor exits.  Opcodes with no `case` of their own
(`oDebugLevel`, the server-block field opcodes, `oFirewallRule`) fall
through the switch and leave the config unchanged, as does the reserved
`oLogServer`. -/
def topAssign (cfg : s_config) (opcode : OpCodes) (p1 : List Char) : s_config :=
  match opcode with
  | .oDaemon => daemonUpdate cfg p1
  | .oExternalInterface => { cfg with external_interface := some p1 }
  | .oGatewayID => { cfg with gw_id := some p1 }
  | .oDevID => { cfg with dev_id := p1 }
  | .oGatewayInterface => { cfg with gw_interface := some p1 }
  | .oGatewayAddress => { cfg with gw_address := some p1 }
  | .oGatewayPort => { cfg with gw_port := (scanIntC p1).getD cfg.gw_port }
  | .oTrustedMACList =>
    { cfg with trustedmaclist := parse_trusted_mac_list p1 cfg.trustedmaclist }
  | .oHTTPDName => { cfg with httpdname := some p1 }
  | .oHTTPDMaxConn => { cfg with httpdmaxconn := (scanIntC p1).getD cfg.httpdmaxconn }
  | .oHTTPDRealm => { cfg with httpdrealm := p1 }
  | .oHTTPDUsername => { cfg with httpdusername := some p1 }
  | .oHTTPDPassword => { cfg with httpdpassword := some p1 }
  | .oCheckInterval => { cfg with checkinterval := (scanIntC p1).getD cfg.checkinterval }
  | .oAuthInterval => { cfg with authinterval := (scanIntC p1).getD cfg.authinterval }
  | .oWdctlSocket => { cfg with wdctl_sock := p1 }
  | .oClientTimeout => { cfg with clienttimeout := (scanIntC p1).getD cfg.clienttimeout }
  | .oSyslogFacility => { cfg with syslog_facility := (scanIntC p1).getD cfg.syslog_facility }
  | .oHtmlMessageFile => { cfg with htmlmsgfile := p1 }
  | .oProxyPort => { cfg with proxy_port := (scanIntC p1).getD cfg.proxy_port }
  | _ => cfg

/-- The line loop of `config_read`, with explicit fuel (each iteration
consumes at least one line, so `lines.length` iterations suffice; the
`config_read` wrapper always supplies enough).  `none` models the fatal
`exit` paths: a bad option at top level or inside a block, and the final
`HTTPDUserName`-without-`HTTPDPassword` check that runs after the whole file
is consumed. -/
def config_read_fuel (d : ConfDefaults) (dns : List Char → Option (List Char)) :
    Nat → List (List Char) → s_config → Option s_config
  | _, [], cfg =>
    if cfg.httpdusername.isSome && cfg.httpdpassword.isNone then none else some cfg
  | 0, _ :: _, _ => none
  | fuel + 1, line :: rest, cfg =>
    match splitTop line with
    | none => config_read_fuel d dns fuel rest cfg
    | some (s, p1) =>
      if s.head? = some '#' then config_read_fuel d dns fuel rest cfg
      else
        if config_parse_token s = .oAuthServer then
          match parse_server d dns cfg 1 rest with
          | none => none
          | some (cfg2, rest2) => config_read_fuel d dns fuel rest2 cfg2
        else if config_parse_token s = .oPortalServer then
          match parse_server d dns cfg 2 rest with
          | none => none
          | some (cfg2, rest2) => config_read_fuel d dns fuel rest2 cfg2
        else if config_parse_token s = .oPlatServer then
          match parse_server d dns cfg 3 rest with
          | none => none
          | some (cfg2, rest2) => config_read_fuel d dns fuel rest2 cfg2
        else if config_parse_token s = .oFirewallRuleSet then
          match parse_firewall_ruleset p1 rest cfg.rulesets with
          | none => none
          | some (rs2, rest2) =>
            config_read_fuel d dns fuel rest2 { cfg with rulesets := rs2 }
        else if config_parse_token s = .oBadOption then none
        else config_read_fuel d dns fuel rest (topAssign cfg (config_parse_token s) p1)

/-- `config_read` on a file already split into lines: `none` models the
fatal `exit` paths. -/
def config_read (d : ConfDefaults) (dns : List Char → Option (List Char))
    (lines : List (List Char)) (cfg : s_config) : Option s_config :=
  config_read_fuel d dns (lines.length + 1) lines cfg

/-- The diagnostics `config_validate` accumulates through `config_notnull`
before it decides to exit: one entry per missing mandatory parameter, in
check order. -/
def config_validate_missing (cfg : s_config) : List (List Char) :=
  (if cfg.gw_interface = none then [chars "GatewayInterface"] else [])
    ++ (if cfg.auth_servers = [] then [chars "AuthServer"] else [])

/-- `config_validate`: terminates the program (`false`) exactly when some
mandatory parameter was reported missing. -/
def config_validate (cfg : s_config) : Bool :=
  (config_validate_missing cfg).isEmpty

/-- Pointer structure of the auth-server list for `mark_auth_server_bad`:
nodes are addresses (naturals) and the map gives each node's `next` field.
The rotation bug of that function lives at this pointer level, so it is
embedded at this level. -/
def NextMap : Type := Nat → Option Nat

/-- A single `p->next = v` store. -/
def heapUpdate (h : NextMap) (a : Nat) (v : Option Nat) : NextMap :=
  fun x => if x = a then v else h x

/-- The `for (tmp = config.auth_servers; tmp->next != NULL; tmp = tmp->next);`
walk to the last node, fuelled (the fuel only needs to exceed the list
length). -/
def lastFrom (h : NextMap) : Nat → Nat → Nat
  | 0, cur => cur
  | fuel + 1, cur =>
    match h cur with
    | none => cur
    | some nxt => lastFrom h fuel nxt

/-- `mark_auth_server_bad`, statement for statement: when the bad server is
the current head and has a successor, walk to the last node `tmp`, store
`tmp->next = bad_server`, move the head to `bad_server->next`, then store
`tmp->next = NULL` (the assignment `bad_server->next = NULL` of the original
algorithm is commented out in the source and replaced by these two).
Returns the new head and the new heap. -/
def mark_auth_server_bad (fuel : Nat) (auth_servers : Option Nat) (h : NextMap)
    (bad_server : Nat) : Option Nat × NextMap :=
  if auth_servers = some bad_server ∧ h bad_server ≠ none then
    let tmp := lastFrom h fuel bad_server
    let h1 := heapUpdate h tmp (some bad_server)
    let newHead := h1 bad_server
    let h2 := heapUpdate h1 tmp none
    (newHead, h2)
  else (auth_servers, h)

/-- Read the list of node addresses off the heap, fuelled. -/
def listFrom (h : NextMap) : Nat → Option Nat → List Nat
  | _, none => []
  | 0, some _ => []
  | fuel + 1, some x => x :: listFrom h fuel (h x)

/-- A three-node auth-server list 0 → 1 → 2. -/
def demoHeap : NextMap :=
  fun n => if n = 0 then some 1 else if n = 1 then some 2 else none

/-- Concrete defaults used by the executable test cases; the claims
themselves quantify over arbitrary defaults. -/
def testDefaults : ConfDefaults := {
  DEFAULT_HTMLMSGFILE := chars "msg.html"
  DEFAULT_DEBUGLEVEL := 1
  DEFAULT_HTTPDMAXCONN := 10
  DEFAULT_DEV := chars "dev"
  DEFAULT_GATEWAYPORT := 2060
  DEFAULT_HTTPDNAME := chars "WiFiDog"
  DEFAULT_CLIENTTIMEOUT := 5
  DEFAULT_CHECKINTERVAL := 60
  DEFAULT_AUTHINTERVAL := 30
  DEFAULT_SYSLOG_FACILITY := 4
  DEFAULT_LOG_SYSLOG := 0
  DEFAULT_WDCTL_SOCK := chars "/tmp/wdctl.sock"
  DEFAULT_INTERNAL_SOCK := chars "/tmp/internal.sock"
  DEFAULT_LOGSERVER := chars "log.example.org"
  DEFAULT_UPDATESERVER := chars "update.example.org"
  DEFAULT_UPDATESERVERPATH := chars "/update/"
  DEFAULT_UPDATESERVERPATHFRAGMENT := chars "update/"
  DEFAULT_AUTHSERVPATH := chars "/auth/"
  DEFAULT_AUTHSERVLOGINPATHFRAGMENT := chars "login/"
  DEFAULT_AUTHSERVPORTALPATHFRAGMENT := chars "portal/"
  DEFAULT_AUTHSERVMSGPATHFRAGMENT := chars "gw_message.php?"
  DEFAULT_AUTHSERVPINGPATHFRAGMENT := chars "ping/"
  DEFAULT_AUTHSERVAUTHPATHFRAGMENT := chars "auth/"
  DEFAULT_AUTHSERVPORT := 80
  DEFAULT_AUTHSERVSSLPORT := 443
  DEFAULT_AUTHSERVSSLAVAILABLE := 0
  DEFAULT_DAEMON := 1 }

/-- A resolver that never resolves, for the executable test cases. -/
def dns0 : List Char → Option (List Char) := fun _ => none

/-- The server-field opcode subset accepted inside a server block (every
opcode with a case of its own in `parse_server`'s switch other than the
fatal `default`). -/
def servOpAllowed : OpCodes → Bool
  | .oServHostname | .oServPath | .oServLoginScriptPathFragment
  | .oServPortalScriptPathFragment | .oServMsgScriptPathFragment
  | .oServPingScriptPathFragment | .oServAuthScriptPathFragment
  | .oServSSLPort | .oServHTTPPort | .oLogServPort | .oServSSLAvailable => true
  | _ => false

/-- Specification-side predicate on the lines of a server block: up to the
closing `}` line, every non-skippable line carries a server-field opcode and
none of them is `Hostname` — the hypothesis of the silently-discarded-block
claim. -/
def serverLinesNoHostname : List (List Char) → Bool
  | [] => true
  | line :: rest =>
    if line.contains '}' then true
    else
      match blockScan line with
      | none => serverLinesNoHostname rest
      | some (tok, _) =>
        !(config_parse_token tok == .oServHostname)
          && servOpAllowed (config_parse_token tok)
          && serverLinesNoHostname rest

/-- Specification-side: the lines remaining after a block, i.e. everything
after the first line containing `}` (everything consumed when there is no
such line). -/
def restAfterBlock : List (List Char) → List (List Char)
  | [] => []
  | line :: rest => if line.contains '}' then rest else restAfterBlock rest

/-- A config as left by a parse of `HTTPDUserName admin` with no password:
used to exhibit the immediate abort of the username check. -/
def cfgBad : s_config :=
  { config_init testDefaults with httpdusername := some (chars "admin") }

/-- A config whose daemon flag was already set (as the command line would)
before the file is read. -/
def cfgDaemonPreset : s_config := { config_init testDefaults with daemon := 1 }

/-! ### Helper lemmas about the ruleset list -/

theorem get_ruleset_fwAppendRule_self (rs : List t_firewall_ruleset) (nm : List Char)
    (r : t_firewall_rule) :
    get_ruleset (fwAppendRule rs nm r) nm = get_ruleset rs nm ++ [r] := by
  induction rs with
  | nil => simp [fwAppendRule, get_ruleset]
  | cons rsh rst ih =>
    by_cases h : rsh.name = nm
    · simp [fwAppendRule, get_ruleset, h]
    · simp [fwAppendRule, get_ruleset, h, ih]

theorem get_ruleset_fwAppendRule_other (rs : List t_firewall_ruleset) (nm m : List Char)
    (r : t_firewall_rule) (hm : m ≠ nm) :
    get_ruleset (fwAppendRule rs nm r) m = get_ruleset rs m := by
  induction rs with
  | nil => simp [fwAppendRule, get_ruleset, Ne.symm hm]
  | cons rsh rst ih =>
    by_cases h : rsh.name = nm
    · have hne : rsh.name ≠ m := fun hc => hm (hc ▸ h)
      simp [fwAppendRule, get_ruleset, h, hne, Ne.symm hm]
    · by_cases h2 : rsh.name = m
      · simp [fwAppendRule, get_ruleset, h, h2, Ne.symm hm, hm]
      · simp [fwAppendRule, get_ruleset, h, h2, ih]

theorem rulesetNames_cons (x : t_firewall_ruleset) (l : List t_firewall_ruleset) :
    rulesetNames (x :: l) = x.name :: rulesetNames l := rfl

theorem rulesetNames_fwAppendRule (rs : List t_firewall_ruleset) (nm : List Char)
    (r : t_firewall_rule) :
    rulesetNames (fwAppendRule rs nm r) =
      if nm ∈ rulesetNames rs then rulesetNames rs else rulesetNames rs ++ [nm] := by
  induction rs with
  | nil => simp [fwAppendRule, rulesetNames]
  | cons rsh rst ih =>
    by_cases h : rsh.name = nm
    · have hmem : nm ∈ rulesetNames (rsh :: rst) := by
        rw [rulesetNames_cons, h]
        exact List.mem_cons_self nm (rulesetNames rst)
      rw [if_pos hmem]
      have hstep : fwAppendRule (rsh :: rst) nm r = ⟨rsh.name, rsh.rules ++ [r]⟩ :: rst := by
        simp [fwAppendRule, h]
      rw [hstep, rulesetNames_cons, rulesetNames_cons]
    · have hstep : fwAppendRule (rsh :: rst) nm r = rsh :: fwAppendRule rst nm r := by
        simp [fwAppendRule, h]
      rw [hstep, rulesetNames_cons, ih, rulesetNames_cons]
      by_cases hmem : nm ∈ rulesetNames rst
      · rw [if_pos hmem, if_pos (List.mem_cons_of_mem rsh.name hmem)]
      · have hnot : nm ∉ rsh.name :: rulesetNames rst := by
          intro hin
          rcases List.mem_cons.mp hin with heq | hin2
          · exact h heq.symm
          · exact hmem hin2
        rw [if_neg hmem, if_neg hnot, List.cons_append]

theorem rulesetNames_nodup_fwAppendRule (rs : List t_firewall_ruleset) (nm : List Char)
    (r : t_firewall_rule) (h : (rulesetNames rs).Nodup) :
    (rulesetNames (fwAppendRule rs nm r)).Nodup := by
  rw [rulesetNames_fwAppendRule]
  by_cases hmem : nm ∈ rulesetNames rs
  · simpa [hmem] using h
  · simp [hmem, List.nodup_append, h]

theorem get_ruleset_eq_nil_of_not_mem (rs : List t_firewall_ruleset) (nm : List Char)
    (h : nm ∉ rulesetNames rs) : get_ruleset rs nm = [] := by
  induction rs with
  | nil => rfl
  | cons rsh rst ih =>
    simp only [rulesetNames, List.map_cons, List.mem_cons] at h
    push_neg at h
    have hne : rsh.name ≠ nm := fun hc => h.1 hc.symm
    simpa [get_ruleset, hne] using ih (by simpa [rulesetNames] using h.2)

/-- What a whole ruleset block does to the ruleset list: the rules accepted
by the mini-parser are appended, in order of appearance, at the tail of the
named ruleset, other rulesets are untouched, and name uniqueness is
preserved. -/
theorem parse_firewall_ruleset_spec (nm : List Char) :
    ∀ (lines : List (List Char)) (rs rs2 : List t_firewall_ruleset)
      (rest : List (List Char)),
    parse_firewall_ruleset nm lines rs = some (rs2, rest) →
    get_ruleset rs2 nm = get_ruleset rs nm ++ blockRules lines
    ∧ (∀ m, m ≠ nm → get_ruleset rs2 m = get_ruleset rs m)
    ∧ ((rulesetNames rs).Nodup → (rulesetNames rs2).Nodup) := by
  intro lines
  induction lines with
  | nil =>
    intro rs rs2 rest h
    simp only [parse_firewall_ruleset, Option.some.injEq, Prod.mk.injEq] at h
    obtain ⟨h1, _⟩ := h
    subst h1
    simp [blockRules]
  | cons line rest2 ih =>
    intro rs rs2 rest h
    cases hc : line.contains '}' with
    | true =>
      simp only [parse_firewall_ruleset, hc, if_true, Option.some.injEq,
        Prod.mk.injEq] at h
      obtain ⟨h1, _⟩ := h
      subst h1
      refine ⟨?_, fun m _ => rfl, fun hn => hn⟩
      simp only [blockRules, hc, if_true, List.append_nil]
    | false =>
      simp only [parse_firewall_ruleset, hc, Bool.false_eq_true, if_false] at h
      have hbr : blockRules (line :: rest2)
          = (match blockScan line with
             | none => blockRules rest2
             | some (_, p2) =>
               match firewallRuleParse p2 with
               | .ok r => r :: blockRules rest2
               | .error _ => blockRules rest2) := by
        simp only [blockRules, hc, Bool.false_eq_true, if_false]
      cases hscan : blockScan line with
      | none =>
        simp only [hscan] at h hbr
        rw [hbr]
        exact ih rs rs2 rest h
      | some pr =>
        obtain ⟨tok, p2⟩ := pr
        simp only [hscan] at h hbr
        by_cases hop : config_parse_token tok = .oFirewallRule
        · rw [if_pos hop] at h
          cases hpr : firewallRuleParse p2 with
          | error code =>
            simp only [_parse_firewall_rule, hpr] at h
            simp only [hpr] at hbr
            rw [hbr]
            exact ih rs rs2 rest h
          | ok r =>
            simp only [_parse_firewall_rule, hpr] at h
            simp only [hpr] at hbr
            obtain ⟨g1, g2, g3⟩ := ih (fwAppendRule rs nm r) rs2 rest h
            refine ⟨?_, ?_, ?_⟩
            · rw [hbr, g1, get_ruleset_fwAppendRule_self]
              simp [List.append_assoc]
            · intro m hm
              rw [g2 m hm, get_ruleset_fwAppendRule_other rs nm m r hm]
            · intro hn
              exact g3 (rulesetNames_nodup_fwAppendRule rs nm r hn)
        · rw [if_neg hop] at h
          exact absurd h (by simp)

/-! ### Helper lemmas about server blocks -/

theorem servAssign_host (acc : ServAcc) (op : OpCodes) (p2 : List Char)
    (hnh : (op == OpCodes.oServHostname) = false) (hallow : servOpAllowed op = true) :
    ∃ acc2, servAssign acc op p2 = some acc2 ∧ acc2.host = acc.host := by
  cases op <;> simp only [servOpAllowed] at hallow <;>
    first
      | exact absurd hallow Bool.false_ne_true
      | exact ⟨_, rfl, rfl⟩
      | exact absurd hnh (by decide)

theorem parse_server_loop_no_host (lines : List (List Char)) : ∀ acc : ServAcc,
    acc.host = none → serverLinesNoHostname lines = true →
    ∃ acc2, parse_server_loop lines acc = some (acc2, restAfterBlock lines)
      ∧ acc2.host = none := by
  induction lines with
  | nil =>
    intro acc hh _
    exact ⟨acc, rfl, hh⟩
  | cons line rest ih =>
    intro acc hh hnh
    cases hc : line.contains '}' with
    | true =>
      refine ⟨acc, ?_, hh⟩
      simp only [parse_server_loop, restAfterBlock, hc, if_true]
    | false =>
      simp only [serverLinesNoHostname, hc, Bool.false_eq_true, if_false] at hnh
      simp only [parse_server_loop, restAfterBlock, hc, Bool.false_eq_true, if_false]
      cases hscan : blockScan line with
      | none =>
        simp only [hscan] at hnh ⊢
        exact ih acc hh hnh
      | some pr =>
        obtain ⟨tok, p2⟩ := pr
        simp only [hscan] at hnh ⊢
        rw [Bool.and_eq_true, Bool.and_eq_true] at hnh
        obtain ⟨⟨h1, h2⟩, h3⟩ := hnh
        rw [Bool.not_eq_true'] at h1
        obtain ⟨acc2, he, hhost⟩ := servAssign_host acc (config_parse_token tok) p2 h1 h2
        rw [he]
        exact ih acc2 (hhost.trans hh) h3

/-! ### Helper lemmas about the daemon flag -/

theorem daemonUpdate_of_ne (cfg : s_config) (v : List Char) (hd : cfg.daemon ≠ -1) :
    daemonUpdate cfg v = cfg := by
  simp [daemonUpdate, hd]

theorem topAssign_daemon (cfg : s_config) (op : OpCodes) (p1 : List Char)
    (hd : cfg.daemon ≠ -1) : (topAssign cfg op p1).daemon = cfg.daemon := by
  cases op <;> simp [topAssign, daemonUpdate_of_ne cfg p1 hd]

theorem parse_server_daemon (d : ConfDefaults) (dns : List Char → Option (List Char))
    (cfg : s_config) (ty : Int) (lines : List (List Char)) (cfg2 : s_config)
    (rest2 : List (List Char))
    (h : parse_server d dns cfg ty lines = some (cfg2, rest2)) :
    cfg2.daemon = cfg.daemon := by
  simp only [parse_server] at h
  repeat' split at h
  all_goals try exact Option.noConfusion h
  all_goals simp only [Option.some.injEq, Prod.mk.injEq] at h
  all_goals rw [← h.1]

theorem config_read_fuel_daemon (d : ConfDefaults) (dns : List Char → Option (List Char)) :
    ∀ (fuel : Nat) (lines : List (List Char)) (cfg cfg' : s_config),
    cfg.daemon ≠ -1 → config_read_fuel d dns fuel lines cfg = some cfg' →
    cfg'.daemon = cfg.daemon := by
  intro fuel
  induction fuel with
  | zero =>
    intro lines cfg cfg' hd h
    cases lines with
    | nil =>
      simp only [config_read_fuel] at h
      split at h
      · exact absurd h (by simp)
      · simp only [Option.some.injEq] at h
        rw [← h]
    | cons l t => exact absurd h (by simp [config_read_fuel])
  | succ n ih =>
    intro lines cfg cfg' hd h
    cases lines with
    | nil =>
      simp only [config_read_fuel] at h
      split at h
      · exact absurd h (by simp)
      · simp only [Option.some.injEq] at h
        rw [← h]
    | cons line rest =>
      simp only [config_read_fuel] at h
      cases hsp : splitTop line with
      | none =>
        simp only [hsp] at h
        exact ih rest cfg cfg' hd h
      | some pr =>
        obtain ⟨s, p1⟩ := pr
        simp only [hsp] at h
        by_cases hcm : s.head? = some '#'
        · rw [if_pos hcm] at h
          exact ih rest cfg cfg' hd h
        · rw [if_neg hcm] at h
          by_cases h1 : config_parse_token s = .oAuthServer
          · rw [if_pos h1] at h
            cases hps : parse_server d dns cfg 1 rest with
            | none =>
              simp only [hps] at h
              exact Option.noConfusion h
            | some pr2 =>
              obtain ⟨cfg2, rest2⟩ := pr2
              simp only [hps] at h
              have hd2 : cfg2.daemon = cfg.daemon :=
                parse_server_daemon d dns cfg 1 rest cfg2 rest2 hps
              rw [← hd2]
              exact ih rest2 cfg2 cfg' (by rw [hd2]; exact hd) h
          · rw [if_neg h1] at h
            by_cases h2 : config_parse_token s = .oPortalServer
            · rw [if_pos h2] at h
              cases hps : parse_server d dns cfg 2 rest with
              | none =>
                simp only [hps] at h
                exact Option.noConfusion h
              | some pr2 =>
                obtain ⟨cfg2, rest2⟩ := pr2
                simp only [hps] at h
                have hd2 : cfg2.daemon = cfg.daemon :=
                  parse_server_daemon d dns cfg 2 rest cfg2 rest2 hps
                rw [← hd2]
                exact ih rest2 cfg2 cfg' (by rw [hd2]; exact hd) h
            · rw [if_neg h2] at h
              by_cases h3 : config_parse_token s = .oPlatServer
              · rw [if_pos h3] at h
                cases hps : parse_server d dns cfg 3 rest with
                | none =>
                  simp only [hps] at h
                  exact Option.noConfusion h
                | some pr2 =>
                  obtain ⟨cfg2, rest2⟩ := pr2
                  simp only [hps] at h
                  have hd2 : cfg2.daemon = cfg.daemon :=
                    parse_server_daemon d dns cfg 3 rest cfg2 rest2 hps
                  rw [← hd2]
                  exact ih rest2 cfg2 cfg' (by rw [hd2]; exact hd) h
              · rw [if_neg h3] at h
                by_cases h4 : config_parse_token s = .oFirewallRuleSet
                · rw [if_pos h4] at h
                  cases hrs : parse_firewall_ruleset p1 rest cfg.rulesets with
                  | none =>
                    simp only [hrs] at h
                    exact Option.noConfusion h
                  | some pr2 =>
                    obtain ⟨rs2, rest2⟩ := pr2
                    simp only [hrs] at h
                    exact ih rest2 { cfg with rulesets := rs2 } cfg' hd h
                · rw [if_neg h4] at h
                  by_cases h5 : config_parse_token s = .oBadOption
                  · rw [if_pos h5] at h
                    exact absurd h (by simp)
                  · rw [if_neg h5] at h
                    have hta := topAssign_daemon cfg (config_parse_token s) p1 hd
                    rw [← hta]
                    exact ih rest (topAssign cfg (config_parse_token s) p1) cfg'
                      (by rw [hta]; exact hd) h


/-! ### The claims -/

/-- C1: the claim (and the function's own comment) says that marking the
current head of a three-entry auth-server list as bad leaves the same three
entries with the former head moved to the tail, nothing lost or duplicated.
The code instead unlinks the head entirely: after appending the head behind
the last node it resets `tmp->next` to NULL (the original
`bad_server->next = NULL` is commented out), so the resulting list has only
the remaining two entries and the bad server leaks.  This theorem evaluates
the embedded pointer code on the 3-node list 0 → 1 → 2 with head 0 marked
bad: the result is [1, 2], not the claimed [1, 2, 0]. -/
theorem C1_mark_auth_server_bad_drops_head :
    listFrom (mark_auth_server_bad 4 (some 0) demoHeap 0).2 4
        (mark_auth_server_bad 4 (some 0) demoHeap 0).1 = [1, 2]
    ∧ listFrom (mark_auth_server_bad 4 (some 0) demoHeap 0).2 4
        (mark_auth_server_bad 4 (some 0) demoHeap 0).1 ≠ [1, 2, 0] :=
  ⟨by decide, by decide⟩

/-- C2 counterexample: inside a ruleset block the line
`firewallrule foo bar` is a rule-grammar violation (the mini-parser returns
the distinct failure code -1), yet the block parser does not abort: it
ignores the code, continues with the next line, keeps the rule parsed from
it, and returns successfully — so a grammar violation is neither fatal nor
does it discard the partial ruleset, contrary to the claim. -/
theorem C2_counterexample_bad_rule_not_fatal :
    firewallRuleParse (chars "foo bar") = .error (-1)
    ∧ parse_firewall_ruleset (chars "global")
        [chars "firewallrule foo bar", chars "firewallrule allow port 80", chars "\x7d"] []
      = some ([⟨chars "global",
          [⟨.TARGET_ACCEPT, none, some (chars "80"), chars "0.0.0.0/0"⟩]⟩], []) :=
  ⟨rfl, rfl⟩

/-- C2 (amended): when a line of a ruleset block decodes to the
`FirewallRule` opcode but its remainder is rejected by the mini-parser with
some failure code, the block parser ignores the code and continues with the
remaining lines, the ruleset list unchanged; only a line whose token is not
the `FirewallRule` keyword aborts fatally. -/
theorem C2_bad_rule_line_skipped (nm line : List Char) (rest : List (List Char))
    (rs : List t_firewall_ruleset) (tok p2 : List Char) (code : Int)
    (hnb : line.contains '}' = false)
    (hscan : blockScan line = some (tok, p2))
    (hop : config_parse_token tok = .oFirewallRule)
    (hfail : firewallRuleParse p2 = .error code) :
    parse_firewall_ruleset nm (line :: rest) rs = parse_firewall_ruleset nm rest rs := by
  simp only [parse_firewall_ruleset, hnb, Bool.false_eq_true, if_false, hscan, hop,
    eq_self_iff_true, if_true, _parse_firewall_rule, hfail]

theorem C2_bad_rule_line_skipped_witness :
    parse_firewall_ruleset (chars "global")
        [chars "firewallrule allow port abc", chars "\x7d"] []
      = parse_firewall_ruleset (chars "global") [chars "\x7d"] [] :=
  C2_bad_rule_line_skipped (chars "global") (chars "firewallrule allow port abc")
    [chars "\x7d"] [] (chars "firewallrule") (chars "allow port abc") (-3)
    (by rfl) (by rfl) (by rfl) (by rfl)

/-- C3: the claim says a normalized MAC is inserted only if no existing
entry of the full list equals it, so the list never holds two equal values.
The membership scan of `parse_trusted_mac_list`, however, compares each node
before advancing and therefore never compares the final node once the list
has two or more entries; a value equal to the current last entry is appended
again.  Evaluating the embedded code at the failing input
`11:11 22:22 22:22` yields a trusted list with a duplicate. -/
theorem C3_trusted_mac_duplicate_kept :
    parse_trusted_mac_list (chars "11:11 22:22 22:22") []
      = [chars "11:11", chars "22:22", chars "22:22"]
    ∧ ¬ (parse_trusted_mac_list (chars "11:11 22:22 22:22") []).Nodup :=
  ⟨rfl, by decide⟩

/-- C4 counterexample: the top-level line `foo` consists of a single token
that matches no keyword, yet `config_read` does not treat it as fatal: a
line from which no value can be split off is skipped before the keyword is
ever looked up, and reading completes successfully. -/
theorem C4_counterexample_unknown_token_skipped :
    config_read testDefaults dns0 [chars "foo"] (config_init testDefaults)
      = some (config_init testDefaults) := rfl

/-- C4 (amended): an unrecognized top-level keyword is fatal exactly when
the scanner extracts a value from the line: if `splitTop` yields a key and a
non-empty value, the key does not begin with `#`, and the lookup returns the
`oBadOption` sentinel, then `config_read` exits fatally; a line without a
value is skipped entirely, its first token never looked up. -/
theorem C4_unknown_toplevel (d : ConfDefaults) (dns : List Char → Option (List Char))
    (line : List Char) (rest : List (List Char)) (cfg : s_config)
    (key value : List Char) :
    (splitTop line = some (key, value) → key.head? ≠ some '#' →
      config_parse_token key = .oBadOption →
      config_read d dns (line :: rest) cfg = none)
    ∧ (splitTop line = none →
      config_read d dns (line :: rest) cfg = config_read d dns rest cfg) := by
  constructor
  · intro hsp hcm hbad
    show config_read_fuel d dns (rest.length + 1 + 1) (line :: rest) cfg = none
    simp only [config_read_fuel, hsp, if_neg hcm, hbad, eq_self_iff_true, if_true]
    simp
  · intro hsp
    show config_read_fuel d dns (rest.length + 1 + 1) (line :: rest) cfg
      = config_read_fuel d dns (rest.length + 1) rest cfg
    simp only [config_read_fuel, hsp]

theorem C4_unknown_toplevel_witness :
    config_read testDefaults dns0 [chars "foo bar"] (config_init testDefaults) = none :=
  (C4_unknown_toplevel testDefaults dns0 (chars "foo bar") [] (config_init testDefaults)
      (chars "foo") (chars "bar")).1 (by rfl) (by decide) (by rfl)

/-- C5 counterexample: the rule line `foo` is not rejected by the
mini-parser.  `foo` is the final token of its line, so the end-of-line flag
is already set when the target is examined, and the test
`!strcasecmp(token, "block") || finished` falls into the default-block arm:
the line parses successfully as a block-everything rule. -/
theorem C5_counterexample_foo_accepted :
    firewallRuleParse (chars "foo")
      = .ok ⟨.TARGET_REJECT, none, none, chars "0.0.0.0/0"⟩ := rfl

/-- C5 (amended): a lone unrecognized target token (`foo`) is accepted as
the default block rule; an unrecognized target followed by a further token
(`foo bar`) fails with code -1, which is distinct from code -3 returned for
the non-numeric port in `allow port abc`. -/
theorem C5_amended_distinct_failures :
    firewallRuleParse (chars "foo") = .ok ⟨.TARGET_REJECT, none, none, chars "0.0.0.0/0"⟩
    ∧ firewallRuleParse (chars "foo bar") = .error (-1)
    ∧ firewallRuleParse (chars "allow port abc") = .error (-3)
    ∧ (-1 : Int) ≠ (-3 : Int) :=
  ⟨rfl, rfl, rfl, by decide⟩

/-- C6: `allow tcp port 80 to 10.0.0.0/8` parses to target accept, protocol
`tcp`, port `80`, mask `10.0.0.0/8`; the bare line `block` parses to target
reject with no protocol, no port, and the default mask `0.0.0.0/0`. -/
theorem C6_rule_examples :
    firewallRuleParse (chars "allow tcp port 80 to 10.0.0.0/8")
      = .ok ⟨.TARGET_ACCEPT, some (chars "tcp"), some (chars "80"), chars "10.0.0.0/8"⟩
    ∧ firewallRuleParse (chars "block")
      = .ok ⟨.TARGET_REJECT, none, none, chars "0.0.0.0/0"⟩ :=
  ⟨rfl, rfl⟩

/-- C7: two ruleset blocks carrying the same (previously unused) name
accumulate all their successfully parsed rules into the single ruleset of
that name — ruleset names stay unique — and that ruleset's rule list is
exactly the rules of the first block followed by the rules of the second,
each in order of appearance. -/
theorem C7_same_name_blocks_accumulate (nm : List Char)
    (ls1 ls2 r1 r2 : List (List Char)) (rs0 rs1 rs2 : List t_firewall_ruleset)
    (hnodup : (rulesetNames rs0).Nodup) (hnew : nm ∉ rulesetNames rs0)
    (h1 : parse_firewall_ruleset nm ls1 rs0 = some (rs1, r1))
    (h2 : parse_firewall_ruleset nm ls2 rs1 = some (rs2, r2)) :
    (rulesetNames rs2).Nodup
    ∧ get_ruleset rs2 nm = blockRules ls1 ++ blockRules ls2 := by
  obtain ⟨g1, _, g3⟩ := parse_firewall_ruleset_spec nm ls1 rs0 rs1 r1 h1
  obtain ⟨k1, _, k3⟩ := parse_firewall_ruleset_spec nm ls2 rs1 rs2 r2 h2
  refine ⟨k3 (g3 hnodup), ?_⟩
  rw [k1, g1, get_ruleset_eq_nil_of_not_mem rs0 nm hnew, List.nil_append]

theorem C7_same_name_blocks_accumulate_witness :
    (rulesetNames [⟨chars "global",
        [⟨.TARGET_REJECT, none, none, chars "0.0.0.0/0"⟩,
         ⟨.TARGET_ACCEPT, some (chars "tcp"), some (chars "80"),
           chars "10.0.0.0/8"⟩]⟩]).Nodup
    ∧ get_ruleset [⟨chars "global",
        [⟨.TARGET_REJECT, none, none, chars "0.0.0.0/0"⟩,
         ⟨.TARGET_ACCEPT, some (chars "tcp"), some (chars "80"),
           chars "10.0.0.0/8"⟩]⟩] (chars "global")
      = blockRules [chars "firewallrule block", chars "\x7d"]
        ++ blockRules [chars "firewallrule allow tcp port 80 to 10.0.0.0/8", chars "\x7d"] :=
  C7_same_name_blocks_accumulate (chars "global")
    [chars "firewallrule block", chars "\x7d"]
    [chars "firewallrule allow tcp port 80 to 10.0.0.0/8", chars "\x7d"] [] []
    [] [⟨chars "global", [⟨.TARGET_REJECT, none, none, chars "0.0.0.0/0"⟩]⟩]
    [⟨chars "global",
      [⟨.TARGET_REJECT, none, none, chars "0.0.0.0/0"⟩,
       ⟨.TARGET_ACCEPT, some (chars "tcp"), some (chars "80"), chars "10.0.0.0/8"⟩]⟩]
    (by decide) (by decide) (by rfl) (by rfl)

/-- C8 counterexample: with all three semantic violations present at once
(gateway interface unset, auth-server list empty, `HTTPDUserName` set with
no `HTTPDPassword`), the process exits inside `config_read` at the
username/password check — `config_validate` never runs, so the three
violations are not accumulated and reported together before the exit. -/
theorem C8_counterexample_username_aborts_first :
    (config_init testDefaults).gw_interface = none
    ∧ (config_init testDefaults).auth_servers = []
    ∧ config_read testDefaults dns0 [chars "httpdusername admin"]
        (config_init testDefaults) = none :=
  ⟨rfl, rfl, rfl⟩

/-- C8 (amended): the validator accumulates its own two checks — when the
gateway interface is unset and the auth-server list empty it reports both
missing parameters together before the single exit; the
username-without-password violation is checked separately at the end of
`config_read` and aborts immediately there, before validation. -/
theorem C8_amended_validator_accumulates :
    (∀ cfg : s_config, cfg.gw_interface = none → cfg.auth_servers = [] →
      config_validate_missing cfg = [chars "GatewayInterface", chars "AuthServer"]
      ∧ config_validate cfg = false)
    ∧ (∀ (d : ConfDefaults) (dns : List Char → Option (List Char)) (cfg : s_config),
      cfg.httpdusername.isSome = true → cfg.httpdpassword = none →
      config_read d dns [] cfg = none) := by
  constructor
  · intro cfg h1 h2
    constructor
    · simp [config_validate_missing, h1, h2]
    · simp [config_validate, config_validate_missing, h1, h2]
  · intro d dns cfg hu hp
    show config_read_fuel d dns 1 [] cfg = none
    simp [config_read_fuel, hu, hp]

theorem C8_amended_witness :
    config_validate_missing (config_init testDefaults)
      = [chars "GatewayInterface", chars "AuthServer"]
    ∧ config_read testDefaults dns0 [] cfgBad = none :=
  ⟨(C8_amended_validator_accumulates.1 (config_init testDefaults) rfl rfl).1,
   C8_amended_validator_accumulates.2 testDefaults dns0 cfgBad rfl rfl⟩

/-- C9: a server block whose interior lines are server-field directives none
of which is `Hostname` is silently discarded when it closes: the config is
returned unchanged (no endpoint appended to any server list), the result is
not the fatal `none`, and parsing resumes at the lines following the block —
for every server kind and every choice of defaults and resolver. -/
theorem C9_block_without_hostname_discarded (d : ConfDefaults)
    (dns : List Char → Option (List Char)) (cfg : s_config) (ty : Int)
    (lines : List (List Char)) (hnh : serverLinesNoHostname lines = true) :
    parse_server d dns cfg ty lines = some (cfg, restAfterBlock lines) := by
  obtain ⟨acc2, he, hhost⟩ := parse_server_loop_no_host lines
    { host := none
      path := d.DEFAULT_AUTHSERVPATH
      loginscriptpathfragment := d.DEFAULT_AUTHSERVLOGINPATHFRAGMENT
      portalscriptpathfragment := d.DEFAULT_AUTHSERVPORTALPATHFRAGMENT
      msgscriptpathfragment := d.DEFAULT_AUTHSERVMSGPATHFRAGMENT
      pingscriptpathfragment := d.DEFAULT_AUTHSERVPINGPATHFRAGMENT
      authscriptpathfragment := d.DEFAULT_AUTHSERVAUTHPATHFRAGMENT
      http_port := d.DEFAULT_AUTHSERVPORT
      ssl_port := d.DEFAULT_AUTHSERVSSLPORT
      ssl_available := d.DEFAULT_AUTHSERVSSLAVAILABLE } rfl hnh
  simp only [parse_server, he, hhost]

theorem C9_block_without_hostname_discarded_witness :
    serverLinesNoHostname [chars "path /login/", chars "\x7d"] = true
    ∧ parse_server testDefaults dns0 (config_init testDefaults) 1
        [chars "path /login/", chars "\x7d"]
      = some (config_init testDefaults, []) :=
  ⟨rfl, C9_block_without_hostname_discarded testDefaults dns0
    (config_init testDefaults) 1 [chars "path /login/", chars "\x7d"] rfl⟩

/-- C10: the daemon flag is assigned by a `Daemon` directive only when the
flag is still unset (-1) and the value is a recognized boolean: a fresh
`config_init` leaves the flag at -1; the directive leaves a flag that is
already set unchanged; an unrecognized boolean leaves an unset flag
unchanged; a recognized boolean is stored; and a whole `config_read` run
never changes a daemon flag that was set before parsing (e.g. by the command
line). -/
theorem C10_daemon_first_valid_wins :
    (∀ d : ConfDefaults, (config_init d).daemon = -1)
    ∧ (∀ (cfg : s_config) (v : List Char), cfg.daemon ≠ -1 → daemonUpdate cfg v = cfg)
    ∧ (∀ (cfg : s_config) (v : List Char), cfg.daemon = -1 → parse_boolean_value v = -1 →
        daemonUpdate cfg v = cfg)
    ∧ (∀ (cfg : s_config) (v : List Char), cfg.daemon = -1 → parse_boolean_value v ≠ -1 →
        (daemonUpdate cfg v).daemon = parse_boolean_value v)
    ∧ (∀ (d : ConfDefaults) (dns : List Char → Option (List Char))
        (lines : List (List Char)) (cfg cfg' : s_config), cfg.daemon ≠ -1 →
        config_read d dns lines cfg = some cfg' → cfg'.daemon = cfg.daemon) := by
  refine ⟨fun d => rfl, fun cfg v h => daemonUpdate_of_ne cfg v h, ?_, ?_, ?_⟩
  · intro cfg v h1 h2
    simp [daemonUpdate, h2]
  · intro cfg v h1 h2
    simp [daemonUpdate, h1, h2]
  · intro d dns lines cfg cfg' hd h
    exact config_read_fuel_daemon d dns (lines.length + 1) lines cfg cfg' hd h

theorem C10_daemon_first_valid_wins_witness :
    (config_init testDefaults).daemon = -1
    ∧ daemonUpdate cfgDaemonPreset (chars "0") = cfgDaemonPreset
    ∧ cfgDaemonPreset.daemon ≠ -1
    ∧ config_read testDefaults dns0 [chars "daemon 0"] cfgDaemonPreset
      = some cfgDaemonPreset
    ∧ cfgDaemonPreset.daemon = cfgDaemonPreset.daemon :=
  ⟨C10_daemon_first_valid_wins.1 testDefaults,
   C10_daemon_first_valid_wins.2.1 cfgDaemonPreset (chars "0") (by decide),
   by decide,
   by rfl,
   C10_daemon_first_valid_wins.2.2.2.2 testDefaults dns0 [chars "daemon 0"]
     cfgDaemonPreset cfgDaemonPreset (by decide) (by rfl)⟩
